import Mathlib

/-!
# Formal model of the RNS-optimized Merkle airdrop contract

A shallow embedding of `src/programs/airdrop/src/lib.rs`:
the `State` account, the residue bit-array primitives
(`check_residue_set`, `set_residue`), the Merkle-proof verifier
(`verify_merkle_proof`), and the instruction handlers
(`initialize`, `claim`, `close_airdrop`, `update_claim_window`,
`update_merkle_root`, `close_state`).

Modelling conventions:
* A byte is a `Nat` (well-formed values are `< 256`); a `[u8; N]` array is a
  `List Nat` of length `N`.  A `Pubkey` is an opaque `Nat` identity.
* `i64` values are `Int`s in `[-2^63, 2^63)`.  The `claim` window check adds
  `claim_start_ts + claim_duration` with unchecked `i64` arithmetic, which
  wraps in a release build; `wrapAdd64` models that two's-complement addition.
* The keccak-256 hash is an external library primitive, so every definition
  that hashes is parameterised by an arbitrary digest function
  `keccak : List Nat → List Nat`.
* Each handler returns `Except ErrorCode Unit × State`: the second component
  is the account state as the handler body leaves it, so an early
  `require!` failure returns the state reached at that point.  In the Rust
  source every mutation of `state` happens after all `require!` checks, and
  the embedding mirrors that control flow exactly.
* The token-transfer CPI and event emissions touch no `State` field and are
  external collaborators; they are not part of the state transition.
-/

namespace Airdrop

/-- `const MAX_CLAIMS: usize = 1_000_000;` -/
def MAX_CLAIMS : Nat := 1000000

/-- `const MODULI: [usize; 3] = [971, 311, 601];` -/
def MODULI : List Nat := [971, 311, 601]

/-- The `#[error_code]` enum of the contract. -/
inductive ErrorCode where
  | ClaimWindowClosed
  | AlreadyClaimed
  | Unauthorized
  | InvalidDuration
  | InvalidProof
  | InvalidIndex
  | ClaimClosed
  deriving DecidableEq, Repr

/-- The `State` account: authority, snapshot hash, claim window, closed flag,
Merkle root, total claim count and the three residue bit arrays
(`[u8; 122]`, `[u8; 39]`, `[u8; 76]`). -/
structure State where
  authority : Nat
  snapshot_hash : List Nat
  claim_start_ts : Int
  claim_duration : Int
  claim_closed : Bool
  merkle_root : List Nat
  total_claims : Nat
  claim_residues0 : List Nat
  claim_residues1 : List Nat
  claim_residues2 : List Nat
  deriving DecidableEq, Repr

/-- Well-formedness of a `State`: the residue arrays have the fixed lengths
`[u8; 122]`, `[u8; 39]`, `[u8; 76]` declared in the account struct. -/
def State.WF (s : State) : Prop :=
  s.claim_residues0.length = 122 ∧
  s.claim_residues1.length = 39 ∧
  s.claim_residues2.length = 76

/-- Two's-complement wrap-around addition of two `i64` values
(release-build `+` on `i64`). -/
def wrapAdd64 (a b : Int) : Int :=
  (a + b + 2 ^ 63) % 2 ^ 64 - 2 ^ 63

/-- Smallest `i64` value. -/
def i64Min : Int := -(2 ^ 63)

/-- Largest `i64` value. -/
def i64Max : Int := 2 ^ 63 - 1

/-- `fn check_residue_set(residues: &[u8], residue: usize) -> bool`:
tests bit `residue` of the packed array, returning `false` when the byte
index is out of bounds (`Option::unwrap_or(false)`). -/
def check_residue_set (residues : List Nat) (residue : Nat) : Bool :=
  let byte_index := residue / 8
  let bit_index := residue % 8
  match residues[byte_index]? with
  | some b => b &&& (1 <<< bit_index) != 0
  | none => false

/-- `fn set_residue(residues: &mut [u8], residue: usize)`:
sets bit `residue` of the packed array, doing nothing when the byte index
is out of bounds (`if let Some(byte) = residues.get_mut(..)`). -/
def set_residue (residues : List Nat) (residue : Nat) : List Nat :=
  let byte_index := residue / 8
  let bit_index := residue % 8
  match residues[byte_index]? with
  | some b => residues.set byte_index (b ||| (1 <<< bit_index))
  | none => residues

/-- Little-endian byte serialisation `u64::to_le_bytes`. -/
def u64_le_bytes (x : Nat) : List Nat :=
  (List.range 8).map (fun i => x / 256 ^ i % 256)

/-- The 32 bytes of a `Pubkey` (opaque identity serialised little-endian). -/
def pubkey_bytes (w : Nat) : List Nat :=
  (List.range 32).map (fun i => w / 256 ^ i % 256)

/-- `fn keccak_leaf(index, wallet, amount)`: digest of
`index.to_le_bytes() ‖ wallet ‖ amount.to_le_bytes()`. -/
def keccak_leaf (keccak : List Nat → List Nat)
    (index : Nat) (wallet : Nat) (amount : Nat) : List Nat :=
  keccak (u64_le_bytes index ++ pubkey_bytes wallet ++ u64_le_bytes amount)

/-- Rust lexicographic `<=` on byte slices (`PartialOrd` for `[u8; 32]`). -/
def bytes_le : List Nat → List Nat → Bool
  | [], [] => true
  | [], _ :: _ => true
  | _ :: _, [] => false
  | a :: as_, b :: bs => if a < b then true else if b < a then false else bytes_le as_ bs

/-- `fn verify_merkle_proof(leaf, proof, root) -> bool`: fold the proof,
hashing each pair in lexicographic byte order (`if hash <= *p`), and compare
the final hash to the root. -/
def verify_merkle_proof (keccak : List Nat → List Nat)
    (leaf : List Nat) (proof : List (List Nat)) (root : List Nat) : Bool :=
  (proof.foldl
    (fun hash p => if bytes_le hash p then keccak (hash ++ p) else keccak (p ++ hash))
    leaf) == root

/-- The `initialize` instruction (renamed here because of a keyword clash):
checks `claim_duration > 0` and `total_claims <= MAX_CLAIMS`, then fills
every field and zeroes the three residue arrays. -/
def initializeState (authority : Nat) (snapshot_hash : List Nat)
    (claim_start_ts claim_duration : Int) (merkle_root : List Nat)
    (total_claims : Nat) : Except ErrorCode State :=
  if claim_duration > 0 then
    if total_claims ≤ MAX_CLAIMS then
      Except.ok
        { authority := authority
          snapshot_hash := snapshot_hash
          claim_start_ts := claim_start_ts
          claim_duration := claim_duration
          claim_closed := false
          merkle_root := merkle_root
          total_claims := total_claims
          claim_residues0 := List.replicate 122 0
          claim_residues1 := List.replicate 39 0
          claim_residues2 := List.replicate 76 0 }
    else Except.error ErrorCode.InvalidIndex
  else Except.error ErrorCode.InvalidDuration

/-- `pub fn claim(ctx, index, amount, proof)`: the five `require!` checks in
source order (closed flag, window with unchecked `i64` addition, index bound,
Merkle proof), then the RNS duplicate check, then the three `set_residue`
marks.  All mutation happens after every check, as in the source. -/
def claim (keccak : List Nat → List Nat) (s : State) (now : Int)
    (index : Nat) (wallet : Nat) (amount : Nat) (proof : List (List Nat)) :
    Except ErrorCode Unit × State :=
  if s.claim_closed = true then (Except.error ErrorCode.ClaimClosed, s)
  else if now ≥ s.claim_start_ts ∧ now ≤ wrapAdd64 s.claim_start_ts s.claim_duration then
    if index < s.total_claims then
      if verify_merkle_proof keccak (keccak_leaf keccak index wallet amount)
          proof s.merkle_root = true then
        -- residue_k = index % MODULI[k], with MODULI = [971, 311, 601]
        if (check_residue_set s.claim_residues0 (index % 971) ||
            check_residue_set s.claim_residues1 (index % 311) ||
            check_residue_set s.claim_residues2 (index % 601)) = true then
          (Except.error ErrorCode.AlreadyClaimed, s)
        else
          (Except.ok (),
            { s with
              claim_residues0 := set_residue s.claim_residues0 (index % 971)
              claim_residues1 := set_residue s.claim_residues1 (index % 311)
              claim_residues2 := set_residue s.claim_residues2 (index % 601) })
      else (Except.error ErrorCode.InvalidProof, s)
    else (Except.error ErrorCode.InvalidIndex, s)
  else (Except.error ErrorCode.ClaimWindowClosed, s)

/-- `pub fn close_airdrop(ctx)`: authority check, then `claim_closed = true`. -/
def close_airdrop (s : State) (caller : Nat) : Except ErrorCode Unit × State :=
  if caller = s.authority then
    (Except.ok (), { s with claim_closed := true })
  else (Except.error ErrorCode.Unauthorized, s)

/-- `pub fn update_claim_window(ctx, new_start_ts, new_duration)`: authority
check, `new_duration > 0` check, then resets `claim_closed` to `false` and
stores the new window. -/
def update_claim_window (s : State) (caller : Nat)
    (new_start_ts new_duration : Int) : Except ErrorCode Unit × State :=
  if caller = s.authority then
    if new_duration > 0 then
      (Except.ok (),
        { s with
          claim_closed := false
          claim_start_ts := new_start_ts
          claim_duration := new_duration })
    else (Except.error ErrorCode.InvalidDuration, s)
  else (Except.error ErrorCode.Unauthorized, s)

/-- `pub fn update_merkle_root(ctx, new_root, new_total_claims)`: the
`new_total_claims <= MAX_CLAIMS` check comes BEFORE the authority check in
the source, then the root and total are replaced; residue arrays untouched. -/
def update_merkle_root (s : State) (caller : Nat)
    (new_root : List Nat) (new_total_claims : Nat) : Except ErrorCode Unit × State :=
  if new_total_claims ≤ MAX_CLAIMS then
    if caller = s.authority then
      (Except.ok (),
        { s with
          merkle_root := new_root
          total_claims := new_total_claims })
    else (Except.error ErrorCode.Unauthorized, s)
  else (Except.error ErrorCode.InvalidIndex, s)

/-- `pub fn close_state(ctx)`: authority check only; the handler body leaves
every `State` field unchanged (the account teardown itself is performed by
the framework's `close = recipient` attribute, an external collaborator). -/
def close_state (s : State) (caller : Nat) : Except ErrorCode Unit × State :=
  if caller = s.authority then (Except.ok (), s)
  else (Except.error ErrorCode.Unauthorized, s)

/-- The membership test of the residue index, as inlined in `claim`
(lines 120-131): an OR of the three residue bits. -/
def is_member (s : State) (index : Nat) : Bool :=
  check_residue_set s.claim_residues0 (index % 971) ||
  check_residue_set s.claim_residues1 (index % 311) ||
  check_residue_set s.claim_residues2 (index % 601)

/-- One invocation of a mutating instruction on a live ledger. -/
inductive Op where
  | claim (now : Int) (index wallet amount : Nat) (proof : List (List Nat))
  | close_airdrop (caller : Nat)
  | update_claim_window (caller : Nat) (new_start_ts new_duration : Int)
  | update_merkle_root (caller : Nat) (new_root : List Nat) (new_total_claims : Nat)
  | close_state (caller : Nat)

/-- The state left behind by one instruction (errors leave the state as the
handler body left it). -/
def applyOp (keccak : List Nat → List Nat) (s : State) : Op → State
  | Op.claim now index wallet amount proof => (claim keccak s now index wallet amount proof).2
  | Op.close_airdrop caller => (close_airdrop s caller).2
  | Op.update_claim_window caller st d => (update_claim_window s caller st d).2
  | Op.update_merkle_root caller root t => (update_merkle_root s caller root t).2
  | Op.close_state caller => (close_state s caller).2

/-- The state after a sequence of instructions. -/
def applyOps (keccak : List Nat → List Nat) (s : State) (ops : List Op) : State :=
  ops.foldl (applyOp keccak) s

/-- Big-endian numeric value of a byte string (the "numeric order" of the
spec: for two 32-byte strings, smaller value first). -/
def beNat : List Nat → Nat
  | [] => 0
  | b :: bs => b * 256 ^ bs.length + beNat bs

/-- Modelled from the spec: the §4.1 description of the proof verifier, the
hash pairs concatenated in ascending NUMERIC order (smaller 32-byte value
first) rather than the source's lexicographic byte comparison.  Used only
to state the refinement claim about `verify_merkle_proof`. -/
def verify_merkle_proof_spec (keccak : List Nat → List Nat)
    (leaf : List Nat) (proof : List (List Nat)) (root : List Nat) : Bool :=
  (proof.foldl
    (fun hash p => if beNat hash ≤ beNat p then keccak (hash ++ p) else keccak (p ++ hash))
    leaf) == root

/-- A well-formed 32-byte string: length 32, every byte below 256. -/
def Bytes32 (bs : List Nat) : Prop :=
  bs.length = 32 ∧ ∀ b ∈ bs, b < 256

/-- A concrete well-formed base state used in witnesses. -/
def sBase : State :=
  { authority := 7
    snapshot_hash := List.replicate 32 0
    claim_start_ts := 0
    claim_duration := 100
    claim_closed := false
    merkle_root := List.replicate 32 0
    total_claims := 5
    claim_residues0 := List.replicate 122 0
    claim_residues1 := List.replicate 39 0
    claim_residues2 := List.replicate 76 0 }

/-- A state whose window end `claim_start_ts + claim_duration` overflows
`i64`, although it satisfies the creation precondition `claim_duration > 0`. -/
def sOverflow : State :=
  { sBase with claim_start_ts := 2 ^ 63 - 1, claim_duration := 1 }

/-- `sBase` with the ledger closed. -/
def sClosed : State :=
  { sBase with claim_closed := true }

set_option maxRecDepth 8000

instance {α β : Type} [DecidableEq α] [DecidableEq β] : DecidableEq (Except α β) :=
  fun a b =>
  match a, b with
  | Except.ok x, Except.ok y =>
      if h : x = y then isTrue (by rw [h]) else isFalse (by simp [h])
  | Except.error x, Except.error y =>
      if h : x = y then isTrue (by rw [h]) else isFalse (by simp [h])
  | Except.ok _, Except.error _ => isFalse (by simp)
  | Except.error _, Except.ok _ => isFalse (by simp)

/-! ## Bit-array lemmas -/

theorem and_shiftLeft_ne_zero (b i : Nat) :
    (b &&& (1 <<< i) != 0) = b.testBit i := by
  rw [Nat.shiftLeft_eq, one_mul, Nat.and_two_pow]
  cases h : b.testBit i
  · simp
  · have hp : (2 : Nat) ^ i ≠ 0 := by positivity
    simp [hp]

theorem testBit_one_shiftLeft_self (i : Nat) : (1 <<< i).testBit i = true := by
  rw [Nat.shiftLeft_eq, one_mul]
  exact Nat.testBit_two_pow_self

theorem check_residue_set_eq_testBit (a : List Nat) (r : Nat) :
    check_residue_set a r = ((a[r / 8]?).getD 0).testBit (r % 8) := by
  simp only [check_residue_set]
  cases h : a[r / 8]? with
  | none => simp [h, Nat.zero_testBit]
  | some b => simp [h, and_shiftLeft_ne_zero]

theorem set_residue_length (a : List Nat) (r : Nat) :
    (set_residue a r).length = a.length := by
  simp only [set_residue]
  cases h : a[r / 8]? with
  | none => simp [h]
  | some b => simp [h]

theorem check_set_self (a : List Nat) (r : Nat) (h : r < 8 * a.length) :
    check_residue_set (set_residue a r) r = true := by
  have hb : r / 8 < a.length := Nat.div_lt_of_lt_mul (by omega)
  have hget : a[r / 8]? = some (a.get ⟨r / 8, hb⟩) := by
    simp [List.getElem?_eq_getElem hb]
  rw [check_residue_set_eq_testBit]
  simp only [set_residue, hget]
  rw [List.getElem?_set_eq_of_lt _ hb]
  simp only [Option.getD_some]
  rw [Nat.testBit_lor, testBit_one_shiftLeft_self, Bool.or_true]

theorem check_set_mono (a : List Nat) (r r' : Nat)
    (h : check_residue_set a r = true) :
    check_residue_set (set_residue a r') r = true := by
  rw [check_residue_set_eq_testBit] at h ⊢
  simp only [set_residue]
  cases hget : a[r' / 8]? with
  | none => simp only [hget]; exact h
  | some b =>
    simp only [hget]
    by_cases hij : r / 8 = r' / 8
    · have hb : r' / 8 < a.length := by
        by_contra hcon
        rw [List.getElem?_eq_none (by omega)] at hget
        exact Option.noConfusion hget
      rw [hij] at h ⊢
      rw [hget] at h
      simp only [Option.getD_some] at h
      rw [List.getElem?_set_eq_of_lt _ hb]
      simp only [Option.getD_some]
      rw [Nat.testBit_lor, h, Bool.true_or]
    · rw [List.getElem?_set_ne (Ne.symm hij)]
      exact h

/-! ## Arithmetic lemmas -/

theorem wrapAdd64_eq (a b : Int) (hlo : i64Min ≤ a + b) (hhi : a + b ≤ i64Max) :
    wrapAdd64 a b = a + b := by
  unfold wrapAdd64
  simp only [i64Min] at hlo
  simp only [i64Max] at hhi
  have hmod : (a + b + 2 ^ 63) % 2 ^ 64 = a + b + 2 ^ 63 :=
    Int.emod_eq_of_lt (by omega) (by omega)
  omega

/-! ## Characterisation of the `claim` transition -/

/-- The marked state produced by a successful `claim` at `index`. -/
def markState (s : State) (index : Nat) : State :=
  { s with
    claim_residues0 := set_residue s.claim_residues0 (index % 971)
    claim_residues1 := set_residue s.claim_residues1 (index % 311)
    claim_residues2 := set_residue s.claim_residues2 (index % 601) }

theorem claim_cases (keccak : List Nat → List Nat) (s : State) (now : Int)
    (index wallet amount : Nat) (proof : List (List Nat)) :
    claim keccak s now index wallet amount proof = (Except.ok (), markState s index) ∨
    ∃ e, claim keccak s now index wallet amount proof = (Except.error e, s) := by
  unfold claim
  split
  · exact Or.inr ⟨_, rfl⟩
  · split
    · split
      · split
        · split
          · exact Or.inr ⟨_, rfl⟩
          · exact Or.inl rfl
        · exact Or.inr ⟨_, rfl⟩
      · exact Or.inr ⟨_, rfl⟩
    · exact Or.inr ⟨_, rfl⟩

theorem claim_of_checks (keccak : List Nat → List Nat) (s : State) (now : Int)
    (index wallet amount : Nat) (proof : List (List Nat))
    (h1 : s.claim_closed = false)
    (h2 : now ≥ s.claim_start_ts ∧ now ≤ wrapAdd64 s.claim_start_ts s.claim_duration)
    (h3 : index < s.total_claims)
    (h4 : verify_merkle_proof keccak (keccak_leaf keccak index wallet amount)
        proof s.merkle_root = true) :
    claim keccak s now index wallet amount proof =
      if is_member s index then (Except.error ErrorCode.AlreadyClaimed, s)
      else (Except.ok (), markState s index) := by
  unfold claim
  rw [if_neg (show ¬s.claim_closed = true by rw [h1]; exact Bool.false_ne_true)]
  rw [if_pos h2, if_pos h3, if_pos h4]
  split
  · rename_i hdup
    rw [if_pos (show is_member s index = true from hdup)]
  · rename_i hdup
    rw [if_neg (show ¬is_member s index = true from hdup)]
    rfl

theorem claim_error_state (keccak : List Nat → List Nat) (s : State) (now : Int)
    (index wallet amount : Nat) (proof : List (List Nat)) (e : ErrorCode)
    (h : (claim keccak s now index wallet amount proof).1 = Except.error e) :
    (claim keccak s now index wallet amount proof).2 = s := by
  rcases claim_cases keccak s now index wallet amount proof with hc | ⟨e', hc⟩
  · rw [hc] at h
    exact absurd h (by simp)
  · rw [hc]

theorem claim_error_kinds (keccak : List Nat → List Nat) (s : State) (now : Int)
    (index wallet amount : Nat) (proof : List (List Nat)) (e : ErrorCode)
    (h : (claim keccak s now index wallet amount proof).1 = Except.error e) :
    e = ErrorCode.ClaimClosed ∨ e = ErrorCode.ClaimWindowClosed ∨
    e = ErrorCode.InvalidIndex ∨ e = ErrorCode.InvalidProof ∨
    e = ErrorCode.AlreadyClaimed := by
  unfold claim at h
  split at h
  · simp at h; subst h; simp
  · split at h
    · split at h
      · split at h
        · split at h
          · simp at h; subst h; simp
          · simp at h
        · simp at h; subst h; simp
      · simp at h; subst h; simp
    · simp at h; subst h; simp

theorem claim_ok_state (keccak : List Nat → List Nat) (s : State) (now : Int)
    (index wallet amount : Nat) (proof : List (List Nat))
    (h : (claim keccak s now index wallet amount proof).1 = Except.ok ()) :
    (claim keccak s now index wallet amount proof).2 = markState s index := by
  rcases claim_cases keccak s now index wallet amount proof with hc | ⟨e', hc⟩
  · rw [hc]
  · rw [hc] at h
    exact absurd h (by simp)

/-! ## Monotonicity of the residue index across operations -/

/-- Every bit set in each residue array of `s` is still set in `t`. -/
def bitsMono (s t : State) : Prop :=
  (∀ r, check_residue_set s.claim_residues0 r = true →
    check_residue_set t.claim_residues0 r = true) ∧
  (∀ r, check_residue_set s.claim_residues1 r = true →
    check_residue_set t.claim_residues1 r = true) ∧
  (∀ r, check_residue_set s.claim_residues2 r = true →
    check_residue_set t.claim_residues2 r = true)

theorem bitsMono_refl (s : State) : bitsMono s s :=
  ⟨fun _ h => h, fun _ h => h, fun _ h => h⟩

theorem bitsMono_markState (s : State) (index : Nat) : bitsMono s (markState s index) :=
  ⟨fun r h => check_set_mono _ r _ h,
   fun r h => check_set_mono _ r _ h,
   fun r h => check_set_mono _ r _ h⟩

theorem applyOp_bitsMono (keccak : List Nat → List Nat) (s : State) (op : Op) :
    bitsMono s (applyOp keccak s op) := by
  cases op with
  | claim now index wallet amount proof =>
    show bitsMono s (claim keccak s now index wallet amount proof).2
    rcases claim_cases keccak s now index wallet amount proof with hc | ⟨e, hc⟩ <;> rw [hc]
    · exact bitsMono_markState s index
    · exact bitsMono_refl s
  | close_airdrop caller =>
    show bitsMono s (close_airdrop s caller).2
    unfold close_airdrop
    split <;> exact bitsMono_refl s
  | update_claim_window caller st d =>
    show bitsMono s (update_claim_window s caller st d).2
    unfold update_claim_window
    split
    · split <;> exact bitsMono_refl s
    · exact bitsMono_refl s
  | update_merkle_root caller root t =>
    show bitsMono s (update_merkle_root s caller root t).2
    unfold update_merkle_root
    split
    · split <;> exact bitsMono_refl s
    · exact bitsMono_refl s
  | close_state caller =>
    show bitsMono s (close_state s caller).2
    unfold close_state
    split <;> exact bitsMono_refl s

theorem is_member_mono (s t : State) (index : Nat) (hm : bitsMono s t)
    (h : is_member s index = true) : is_member t index = true := by
  unfold is_member at h ⊢
  rcases Bool.or_eq_true_iff.mp h with h01 | h2
  · rcases Bool.or_eq_true_iff.mp h01 with h0 | h1
    · rw [hm.1 _ h0, Bool.true_or, Bool.true_or]
    · rw [hm.2.1 _ h1, Bool.or_true, Bool.true_or]
  · rw [hm.2.2 _ h2, Bool.or_true]

theorem is_member_applyOps (keccak : List Nat → List Nat) (s : State)
    (ops : List Op) (index : Nat) (h : is_member s index = true) :
    is_member (applyOps keccak s ops) index = true := by
  induction ops generalizing s with
  | nil => exact h
  | cons op ops ih =>
    exact ih _ (is_member_mono _ _ _ (applyOp_bitsMono keccak s op) h)

theorem claim_ok_not_member (keccak : List Nat → List Nat) (s : State)
    (now : Int) (index wallet amount : Nat) (proof : List (List Nat))
    (h : (claim keccak s now index wallet amount proof).1 = Except.ok ()) :
    is_member s index = false := by
  unfold claim at h
  split at h
  · simp at h
  · split at h
    · split at h
      · split at h
        · split at h
          · simp at h
          · rename_i hdup
            simp only [Bool.not_eq_true] at hdup
            unfold is_member
            exact hdup
        · simp at h
      · simp at h
    · simp at h

theorem claim_not_ok_of_member (keccak : List Nat → List Nat) (s : State)
    (now : Int) (index wallet amount : Nat) (proof : List (List Nat))
    (h : is_member s index = true) :
    (claim keccak s now index wallet amount proof).1 ≠ Except.ok () := by
  intro hok
  rw [claim_ok_not_member keccak s now index wallet amount proof hok] at h
  exact Bool.noConfusion h

/-! ## Lexicographic byte order agrees with big-endian numeric order -/

theorem beNat_lt_pow (a : List Nat) (ha : ∀ x ∈ a, x < 256) :
    beNat a < 256 ^ a.length := by
  induction a with
  | nil => simp [beNat]
  | cons b bs ih =>
    have hb : b < 256 := ha b (List.mem_cons_self b bs)
    have hbs : beNat bs < 256 ^ bs.length :=
      ih (fun x hx => ha x (List.mem_cons_of_mem b hx))
    simp only [beNat, List.length_cons]
    calc b * 256 ^ bs.length + beNat bs
        < b * 256 ^ bs.length + 256 ^ bs.length := by omega
      _ = (b + 1) * 256 ^ bs.length := by ring
      _ ≤ 256 * 256 ^ bs.length := Nat.mul_le_mul_right _ hb
      _ = 256 ^ (bs.length + 1) := by ring

theorem bytes_le_iff_beNat (a b : List Nat) (hlen : a.length = b.length)
    (ha : ∀ x ∈ a, x < 256) (hb : ∀ x ∈ b, x < 256) :
    bytes_le a b = true ↔ beNat a ≤ beNat b := by
  induction a generalizing b with
  | nil =>
    cases b with
    | nil => simp [bytes_le, beNat]
    | cons y ys => simp at hlen
  | cons x xs ih =>
    cases b with
    | nil => simp at hlen
    | cons y ys =>
      have hlen' : xs.length = ys.length := by simpa using hlen
      have hxs : ∀ z ∈ xs, z < 256 := fun z hz => ha z (List.mem_cons_of_mem x hz)
      have hys : ∀ z ∈ ys, z < 256 := fun z hz => hb z (List.mem_cons_of_mem y hz)
      have hbx : beNat xs < 256 ^ ys.length := by
        rw [← hlen']
        exact beNat_lt_pow xs hxs
      have hby : beNat ys < 256 ^ ys.length := beNat_lt_pow ys hys
      simp only [bytes_le, beNat, hlen']
      by_cases hlt : x < y
      · rw [if_pos hlt]
        refine iff_of_true rfl (le_of_lt ?_)
        calc x * 256 ^ ys.length + beNat xs
            < x * 256 ^ ys.length + 256 ^ ys.length := by omega
          _ = (x + 1) * 256 ^ ys.length := by ring
          _ ≤ y * 256 ^ ys.length := Nat.mul_le_mul_right _ hlt
          _ ≤ y * 256 ^ ys.length + beNat ys := Nat.le_add_right _ _
      · by_cases hgt : y < x
        · rw [if_neg hlt, if_pos hgt]
          refine iff_of_false (by simp) (not_le.mpr ?_)
          calc y * 256 ^ ys.length + beNat ys
              < y * 256 ^ ys.length + 256 ^ ys.length := by omega
            _ = (y + 1) * 256 ^ ys.length := by ring
            _ ≤ x * 256 ^ ys.length := Nat.mul_le_mul_right _ hgt
            _ ≤ x * 256 ^ ys.length + beNat xs := Nat.le_add_right _ _
        · have hxy : x = y := by omega
          subst hxy
          rw [if_neg hlt, if_neg hgt, ih ys hlen' hxs hys]
          constructor
          · intro hle
            exact Nat.add_le_add_left hle _
          · intro hle
            exact Nat.le_of_add_le_add_left hle

theorem verify_fold_eq (keccak : List Nat → List Nat)
    (hk : ∀ x, Bytes32 (keccak x)) (proof : List (List Nat)) :
    ∀ h : List Nat, Bytes32 h → (∀ p ∈ proof, Bytes32 p) →
      proof.foldl
        (fun hash p => if bytes_le hash p then keccak (hash ++ p) else keccak (p ++ hash)) h =
      proof.foldl
        (fun hash p => if beNat hash ≤ beNat p then keccak (hash ++ p) else keccak (p ++ hash)) h := by
  induction proof with
  | nil => intro h _ _; rfl
  | cons p ps ih =>
    intro h hh hps
    have hp : Bytes32 p := hps p (List.mem_cons_self p ps)
    simp only [List.foldl_cons]
    have hstep : (if bytes_le h p then keccak (h ++ p) else keccak (p ++ h)) =
        (if beNat h ≤ beNat p then keccak (h ++ p) else keccak (p ++ h)) := by
      by_cases hle : beNat h ≤ beNat p
      · rw [if_pos ((bytes_le_iff_beNat h p (by rw [hh.1, hp.1]) hh.2 hp.2).mpr hle),
          if_pos hle]
      · rw [if_neg (fun hc =>
          hle ((bytes_le_iff_beNat h p (by rw [hh.1, hp.1]) hh.2 hp.2).mp hc)),
          if_neg hle]
    rw [hstep]
    have hnext : Bytes32 (if beNat h ≤ beNat p then keccak (h ++ p) else keccak (p ++ h)) := by
      by_cases hle : beNat h ≤ beNat p
      · rw [if_pos hle]; exact hk _
      · rw [if_neg hle]; exact hk _
    exact ih _ hnext (fun q hq => hps q (List.mem_cons_of_mem p hq))

theorem verify_eq_spec (keccak : List Nat → List Nat)
    (hk : ∀ x, Bytes32 (keccak x)) (leaf : List Nat) (proof : List (List Nat))
    (root : List Nat) (hleaf : Bytes32 leaf) (hproof : ∀ p ∈ proof, Bytes32 p) :
    verify_merkle_proof keccak leaf proof root =
      verify_merkle_proof_spec keccak leaf proof root := by
  unfold verify_merkle_proof verify_merkle_proof_spec
  rw [verify_fold_eq keccak hk proof leaf hleaf hproof]

theorem claim_invalid_proof (keccak : List Nat → List Nat) (s : State) (now : Int)
    (index wallet amount : Nat) (proof : List (List Nat))
    (h1 : s.claim_closed = false)
    (h2 : now ≥ s.claim_start_ts ∧ now ≤ wrapAdd64 s.claim_start_ts s.claim_duration)
    (h3 : index < s.total_claims)
    (h4 : verify_merkle_proof keccak (keccak_leaf keccak index wallet amount)
        proof s.merkle_root = false) :
    claim keccak s now index wallet amount proof = (Except.error ErrorCode.InvalidProof, s) := by
  unfold claim
  rw [if_neg (show ¬s.claim_closed = true by rw [h1]; exact Bool.false_ne_true)]
  rw [if_pos h2, if_pos h3,
    if_neg (show ¬_ = true by rw [h4]; exact Bool.false_ne_true)]

theorem claim_already_of_member (keccak : List Nat → List Nat) (s : State)
    (now : Int) (index wallet amount : Nat) (proof : List (List Nat))
    (h : is_member s index = true)
    (h1 : s.claim_closed = false)
    (h2 : now ≥ s.claim_start_ts ∧ now ≤ wrapAdd64 s.claim_start_ts s.claim_duration)
    (h3 : index < s.total_claims)
    (h4 : verify_merkle_proof keccak (keccak_leaf keccak index wallet amount)
        proof s.merkle_root = true) :
    (claim keccak s now index wallet amount proof).1 = Except.error ErrorCode.AlreadyClaimed := by
  rw [claim_of_checks keccak s now index wallet amount proof h1 h2 h3 h4, if_pos h]

theorem is_member_markState (s : State) (index : Nat) (hWF : s.WF) :
    is_member (markState s index) index = true := by
  have h0 : check_residue_set (set_residue s.claim_residues0 (index % 971)) (index % 971) = true := by
    apply check_set_self
    have hm : index % 971 < 971 := Nat.mod_lt _ (by decide)
    rw [hWF.1]
    omega
  show (check_residue_set (set_residue s.claim_residues0 (index % 971)) (index % 971) ||
      check_residue_set (set_residue s.claim_residues1 (index % 311)) (index % 311) ||
      check_residue_set (set_residue s.claim_residues2 (index % 601)) (index % 601)) = true
  rw [h0]
  simp

/-! ## The admin operations never touch the residue arrays -/

theorem update_merkle_root_residues (s : State) (caller : Nat)
    (root : List Nat) (t : Nat) :
    (update_merkle_root s caller root t).2.claim_residues0 = s.claim_residues0 ∧
    (update_merkle_root s caller root t).2.claim_residues1 = s.claim_residues1 ∧
    (update_merkle_root s caller root t).2.claim_residues2 = s.claim_residues2 := by
  unfold update_merkle_root
  split
  · split
    · exact ⟨rfl, rfl, rfl⟩
    · exact ⟨rfl, rfl, rfl⟩
  · exact ⟨rfl, rfl, rfl⟩

theorem close_airdrop_residues (s : State) (caller : Nat) :
    (close_airdrop s caller).2.claim_residues0 = s.claim_residues0 ∧
    (close_airdrop s caller).2.claim_residues1 = s.claim_residues1 ∧
    (close_airdrop s caller).2.claim_residues2 = s.claim_residues2 := by
  unfold close_airdrop
  split
  · exact ⟨rfl, rfl, rfl⟩
  · exact ⟨rfl, rfl, rfl⟩

theorem update_claim_window_residues (s : State) (caller : Nat) (st d : Int) :
    (update_claim_window s caller st d).2.claim_residues0 = s.claim_residues0 ∧
    (update_claim_window s caller st d).2.claim_residues1 = s.claim_residues1 ∧
    (update_claim_window s caller st d).2.claim_residues2 = s.claim_residues2 := by
  unfold update_claim_window
  split
  · split
    · exact ⟨rfl, rfl, rfl⟩
    · exact ⟨rfl, rfl, rfl⟩
  · exact ⟨rfl, rfl, rfl⟩

theorem close_state_state (s : State) (caller : Nat) :
    (close_state s caller).2 = s := by
  unfold close_state
  split
  · rfl
  · rfl

theorem update_merkle_root_ok (s : State) (root : List Nat) (t : Nat)
    (ht : t ≤ MAX_CLAIMS) :
    update_merkle_root s s.authority root t =
      (Except.ok (), { s with merkle_root := root, total_claims := t }) := by
  unfold update_merkle_root
  rw [if_pos ht, if_pos rfl]

/-- The digest function used by concrete witnesses: a constant 32-byte value. -/
def keccak0 : List Nat → List Nat := fun _ => List.replicate 32 0

/-- A concrete state whose three residue arrays are fully set. -/
def sMarked : State :=
  { sBase with
    claim_residues0 := List.replicate 122 255
    claim_residues1 := List.replicate 39 255
    claim_residues2 := List.replicate 76 255 }

/-! ## The claims -/

/-- C1: for every ledger state and every slot index below `total_claims` that
passes the closed, window and proof checks, `claim` fails with
`AlreadyClaimed` if and only if at least one of the three bits at positions
`index mod 971`, `index mod 311`, `index mod 601` of the respective residue
arrays is set — whatever slot set those bits. -/
theorem C1_membership_is_or (keccak : List Nat → List Nat) (s : State) (now : Int)
    (index wallet amount : Nat) (proof : List (List Nat))
    (h1 : s.claim_closed = false)
    (h2 : now ≥ s.claim_start_ts ∧ now ≤ wrapAdd64 s.claim_start_ts s.claim_duration)
    (h3 : index < s.total_claims)
    (h4 : verify_merkle_proof keccak (keccak_leaf keccak index wallet amount)
        proof s.merkle_root = true) :
    (claim keccak s now index wallet amount proof).1 = Except.error ErrorCode.AlreadyClaimed ↔
      (check_residue_set s.claim_residues0 (index % 971) ||
       check_residue_set s.claim_residues1 (index % 311) ||
       check_residue_set s.claim_residues2 (index % 601)) = true := by
  rw [claim_of_checks keccak s now index wallet amount proof h1 h2 h3 h4]
  by_cases hm : is_member s index
  · rw [if_pos hm]
    exact iff_of_true rfl hm
  · rw [if_neg hm]
    exact iff_of_false (by simp) hm

/-- Witness for C1 at a concrete passing input: slot 3 of a fresh ledger with
an empty proof under a constant digest function. -/
theorem C1_membership_is_or_witness :
    (claim keccak0 sBase 0 3 0 0 []).1 = Except.error ErrorCode.AlreadyClaimed ↔
      (check_residue_set sBase.claim_residues0 (3 % 971) ||
       check_residue_set sBase.claim_residues1 (3 % 311) ||
       check_residue_set sBase.claim_residues2 (3 % 601)) = true :=
  C1_membership_is_or keccak0 sBase 0 3 0 0 [] rfl (by decide) (by decide) (by decide)

/-- C2: once `claim` has succeeded for slot `index`, then after every further
sequence of operations the membership test still returns true for `index`,
a new `claim` for `index` can never succeed, and whenever it again passes
the closed/window/index/proof checks it fails with `AlreadyClaimed`. -/
theorem C2_no_false_negative (keccak : List Nat → List Nat) (s : State)
    (now : Int) (index wallet amount : Nat) (proof : List (List Nat))
    (ops : List Op) (now' : Int) (wallet' amount' : Nat) (proof' : List (List Nat))
    (s' : State)
    (hWF : s.WF)
    (hok : (claim keccak s now index wallet amount proof).1 = Except.ok ())
    (hs' : s' = applyOps keccak (claim keccak s now index wallet amount proof).2 ops) :
    is_member s' index = true ∧
    (claim keccak s' now' index wallet' amount' proof').1 ≠ Except.ok () ∧
    (s'.claim_closed = false →
      (now' ≥ s'.claim_start_ts ∧ now' ≤ wrapAdd64 s'.claim_start_ts s'.claim_duration) →
      index < s'.total_claims →
      verify_merkle_proof keccak (keccak_leaf keccak index wallet' amount')
        proof' s'.merkle_root = true →
      (claim keccak s' now' index wallet' amount' proof').1 =
        Except.error ErrorCode.AlreadyClaimed) := by
  have hsnd := claim_ok_state keccak s now index wallet amount proof hok
  have hmem : is_member s' index = true := by
    rw [hs']
    apply is_member_applyOps
    rw [hsnd]
    exact is_member_markState s index hWF
  exact ⟨hmem,
    claim_not_ok_of_member keccak s' now' index wallet' amount' proof' hmem,
    fun hc1 hc2 hc3 hc4 =>
      claim_already_of_member keccak s' now' index wallet' amount' proof' hmem hc1 hc2 hc3 hc4⟩

/-- Witness for C2: claim slot 3 of a fresh ledger, apply no further
operations, and attempt slot 3 again. -/
theorem C2_no_false_negative_witness :
    is_member (applyOps keccak0 (claim keccak0 sBase 0 3 0 0 []).2 []) 3 = true ∧
    (claim keccak0 (applyOps keccak0 (claim keccak0 sBase 0 3 0 0 []).2 []) 0 3 0 0 []).1 ≠
      Except.ok () ∧
    ((applyOps keccak0 (claim keccak0 sBase 0 3 0 0 []).2 []).claim_closed = false →
      ((0 : Int) ≥ (applyOps keccak0 (claim keccak0 sBase 0 3 0 0 []).2 []).claim_start_ts ∧
        (0 : Int) ≤ wrapAdd64 (applyOps keccak0 (claim keccak0 sBase 0 3 0 0 []).2 []).claim_start_ts
          (applyOps keccak0 (claim keccak0 sBase 0 3 0 0 []).2 []).claim_duration) →
      3 < (applyOps keccak0 (claim keccak0 sBase 0 3 0 0 []).2 []).total_claims →
      verify_merkle_proof keccak0 (keccak_leaf keccak0 3 0 0) []
        (applyOps keccak0 (claim keccak0 sBase 0 3 0 0 []).2 []).merkle_root = true →
      (claim keccak0 (applyOps keccak0 (claim keccak0 sBase 0 3 0 0 []).2 []) 0 3 0 0 []).1 =
        Except.error ErrorCode.AlreadyClaimed) :=
  C2_no_false_negative keccak0 sBase 0 3 0 0 [] [] 0 0 0 [] _
    (by exact ⟨rfl, rfl, rfl⟩) (by decide) rfl

/-- C3: the inclusion-proof verifier folds the leaf through the proof, each
step hashing the 64-byte concatenation of the running hash and the proof
element in ascending numeric order (smaller 32-byte value first, which for
32-byte strings coincides with the source's lexicographic comparison); it
returns true iff the final hash equals the root; it is a total boolean
function, and the `claim` handler converts a false answer into the
`InvalidProof` error with the state unchanged. -/
theorem C3_verifier_refinement (keccak : List Nat → List Nat)
    (leaf root : List Nat) (proof : List (List Nat))
    (hk : ∀ x, Bytes32 (keccak x)) (hleaf : Bytes32 leaf)
    (hproof : ∀ p ∈ proof, Bytes32 p) :
    verify_merkle_proof keccak leaf proof root =
      verify_merkle_proof_spec keccak leaf proof root ∧
    (verify_merkle_proof keccak leaf proof root = true ↔
      proof.foldl
        (fun hash p => if bytes_le hash p then keccak (hash ++ p) else keccak (p ++ hash))
        leaf = root) ∧
    (∀ (s : State) (now : Int) (index wallet amount : Nat),
      s.claim_closed = false →
      (now ≥ s.claim_start_ts ∧ now ≤ wrapAdd64 s.claim_start_ts s.claim_duration) →
      index < s.total_claims →
      verify_merkle_proof keccak (keccak_leaf keccak index wallet amount)
        proof s.merkle_root = false →
      claim keccak s now index wallet amount proof =
        (Except.error ErrorCode.InvalidProof, s)) := by
  refine ⟨verify_eq_spec keccak hk leaf proof root hleaf hproof, ?_,
    fun s now index wallet amount h1 h2 h3 h4 =>
      claim_invalid_proof keccak s now index wallet amount proof h1 h2 h3 h4⟩
  unfold verify_merkle_proof
  exact beq_iff_eq

/-- Witness for C3 at a concrete input: constant digest, zero leaf, one
proof element. -/
theorem C3_verifier_refinement_witness :
    verify_merkle_proof keccak0 (List.replicate 32 0) [List.replicate 32 1]
        (List.replicate 32 0) =
      verify_merkle_proof_spec keccak0 (List.replicate 32 0) [List.replicate 32 1]
        (List.replicate 32 0) ∧
    (verify_merkle_proof keccak0 (List.replicate 32 0) [List.replicate 32 1]
        (List.replicate 32 0) = true ↔
      List.foldl
        (fun hash p => if bytes_le hash p then keccak0 (hash ++ p) else keccak0 (p ++ hash))
        (List.replicate 32 0) [List.replicate 32 1] = List.replicate 32 0) ∧
    (∀ (s : State) (now : Int) (index wallet amount : Nat),
      s.claim_closed = false →
      (now ≥ s.claim_start_ts ∧ now ≤ wrapAdd64 s.claim_start_ts s.claim_duration) →
      index < s.total_claims →
      verify_merkle_proof keccak0 (keccak_leaf keccak0 index wallet amount)
        [List.replicate 32 1] s.merkle_root = false →
      claim keccak0 s now index wallet amount [List.replicate 32 1] =
        (Except.error ErrorCode.InvalidProof, s)) :=
  C3_verifier_refinement keccak0 (List.replicate 32 0) (List.replicate 32 0)
    [List.replicate 32 1]
    (fun x => ⟨rfl, fun b hb => by rw [List.eq_of_mem_replicate hb]; decide⟩)
    ⟨by decide, by decide⟩
    (fun p hp => by
      rw [List.mem_singleton.mp hp]
      exact ⟨by decide, fun b hb => by rw [List.eq_of_mem_replicate hb]; decide⟩)

/-- C4: whenever `claim` fails, the error is one of the five validation
errors and the ledger state — every field, including the three residue
arrays — is left exactly as it was; no residue bit is partially marked. -/
theorem C4_failure_atomicity (keccak : List Nat → List Nat) (s : State)
    (now : Int) (index wallet amount : Nat) (proof : List (List Nat))
    (e : ErrorCode)
    (h : (claim keccak s now index wallet amount proof).1 = Except.error e) :
    (claim keccak s now index wallet amount proof).2 = s ∧
    (e = ErrorCode.ClaimClosed ∨ e = ErrorCode.ClaimWindowClosed ∨
     e = ErrorCode.InvalidIndex ∨ e = ErrorCode.InvalidProof ∨
     e = ErrorCode.AlreadyClaimed) :=
  ⟨claim_error_state keccak s now index wallet amount proof e h,
   claim_error_kinds keccak s now index wallet amount proof e h⟩

/-- Witness for C4: a claim against a closed ledger fails and leaves the
state unchanged. -/
theorem C4_failure_atomicity_witness :
    (claim keccak0 sClosed 0 3 0 0 []).2 = sClosed ∧
    (ErrorCode.ClaimClosed = ErrorCode.ClaimClosed ∨
     ErrorCode.ClaimClosed = ErrorCode.ClaimWindowClosed ∨
     ErrorCode.ClaimClosed = ErrorCode.InvalidIndex ∨
     ErrorCode.ClaimClosed = ErrorCode.InvalidProof ∨
     ErrorCode.ClaimClosed = ErrorCode.AlreadyClaimed) :=
  C4_failure_atomicity keccak0 sClosed 0 3 0 0 [] ErrorCode.ClaimClosed (by decide)

/-- C5: set residue bits are never cleared by any live-ledger operation:
`update_merkle_root` replaces the root and the total claim count but leaves
all three residue arrays unchanged (for any caller), `close_airdrop` and
`update_claim_window` never touch them, the `close_state` handler leaves the
whole state unchanged (the teardown itself is the framework's), and `claim`
only ever adds bits. -/
theorem C5_residue_monotonic (keccak : List Nat → List Nat) (s : State)
    (caller : Nat) (root : List Nat) (t : Nat) (st d now : Int)
    (index wallet amount : Nat) (proof : List (List Nat)) (r0 r1 r2 : Nat)
    (ht : t ≤ MAX_CLAIMS)
    (h0 : check_residue_set s.claim_residues0 r0 = true)
    (h1 : check_residue_set s.claim_residues1 r1 = true)
    (h2 : check_residue_set s.claim_residues2 r2 = true) :
    ((update_merkle_root s caller root t).2.claim_residues0 = s.claim_residues0 ∧
     (update_merkle_root s caller root t).2.claim_residues1 = s.claim_residues1 ∧
     (update_merkle_root s caller root t).2.claim_residues2 = s.claim_residues2) ∧
    ((update_merkle_root s s.authority root t).2.merkle_root = root ∧
     (update_merkle_root s s.authority root t).2.total_claims = t) ∧
    ((close_airdrop s caller).2.claim_residues0 = s.claim_residues0 ∧
     (close_airdrop s caller).2.claim_residues1 = s.claim_residues1 ∧
     (close_airdrop s caller).2.claim_residues2 = s.claim_residues2) ∧
    ((update_claim_window s caller st d).2.claim_residues0 = s.claim_residues0 ∧
     (update_claim_window s caller st d).2.claim_residues1 = s.claim_residues1 ∧
     (update_claim_window s caller st d).2.claim_residues2 = s.claim_residues2) ∧
    (close_state s caller).2 = s ∧
    (check_residue_set (claim keccak s now index wallet amount proof).2.claim_residues0 r0 = true ∧
     check_residue_set (claim keccak s now index wallet amount proof).2.claim_residues1 r1 = true ∧
     check_residue_set (claim keccak s now index wallet amount proof).2.claim_residues2 r2 = true) := by
  have hmono := applyOp_bitsMono keccak s (Op.claim now index wallet amount proof)
  refine ⟨update_merkle_root_residues s caller root t, ?_,
    close_airdrop_residues s caller, update_claim_window_residues s caller st d,
    close_state_state s caller, hmono.1 r0 h0, hmono.2.1 r1 h1, hmono.2.2 r2 h2⟩
  rw [update_merkle_root_ok s root t ht]
  exact ⟨rfl, rfl⟩

/-- Witness for C5 on a fully marked ledger. -/
theorem C5_residue_monotonic_witness :
    ((update_merkle_root sMarked 8 (List.replicate 32 1) 9).2.claim_residues0 =
        sMarked.claim_residues0 ∧
     (update_merkle_root sMarked 8 (List.replicate 32 1) 9).2.claim_residues1 =
        sMarked.claim_residues1 ∧
     (update_merkle_root sMarked 8 (List.replicate 32 1) 9).2.claim_residues2 =
        sMarked.claim_residues2) ∧
    ((update_merkle_root sMarked sMarked.authority (List.replicate 32 1) 9).2.merkle_root =
        List.replicate 32 1 ∧
     (update_merkle_root sMarked sMarked.authority (List.replicate 32 1) 9).2.total_claims = 9) ∧
    ((close_airdrop sMarked 8).2.claim_residues0 = sMarked.claim_residues0 ∧
     (close_airdrop sMarked 8).2.claim_residues1 = sMarked.claim_residues1 ∧
     (close_airdrop sMarked 8).2.claim_residues2 = sMarked.claim_residues2) ∧
    ((update_claim_window sMarked 8 1 2).2.claim_residues0 = sMarked.claim_residues0 ∧
     (update_claim_window sMarked 8 1 2).2.claim_residues1 = sMarked.claim_residues1 ∧
     (update_claim_window sMarked 8 1 2).2.claim_residues2 = sMarked.claim_residues2) ∧
    (close_state sMarked 8).2 = sMarked ∧
    (check_residue_set (claim keccak0 sMarked 0 3 0 0 []).2.claim_residues0 0 = true ∧
     check_residue_set (claim keccak0 sMarked 0 3 0 0 []).2.claim_residues1 0 = true ∧
     check_residue_set (claim keccak0 sMarked 0 3 0 0 []).2.claim_residues2 0 = true) :=
  C5_residue_monotonic keccak0 sMarked 8 (List.replicate 32 1) 9 1 2 0 3 0 0 [] 0 0 0
    (by decide) (by decide) (by decide) (by decide)

/-- C6 counterexample: a non-authority caller of `update_merkle_root` with
`new_total_claims = 1000001 > MAX_CLAIMS` is rejected with `InvalidIndex`,
not `Unauthorized` — the range check precedes the authority check — so the
claim "every admin operation fails with Unauthorized for every argument
value when the caller is not the authority" is false as stated. -/
theorem C6_counterexample :
    (8 : Nat) ≠ sBase.authority ∧
    (update_merkle_root sBase 8 (List.replicate 32 1) 1000001).1 =
      Except.error ErrorCode.InvalidIndex ∧
    (update_merkle_root sBase 8 (List.replicate 32 1) 1000001).1 ≠
      Except.error ErrorCode.Unauthorized :=
  ⟨by decide, by decide, by decide⟩

/-- C6 (amended): every admin operation invoked by a caller other than the
stored authority fails and leaves the ledger unchanged; the error is
`Unauthorized` for `close_airdrop`, `update_claim_window` and `close_state`
for every argument value, and for `update_merkle_root` whenever
`new_total_claims ≤ MAX_CLAIMS`; with `new_total_claims > MAX_CLAIMS` the
`update_merkle_root` handler instead fails with `InvalidIndex`. -/
theorem C6_authority_gating (s : State) (caller : Nat) (root : List Nat)
    (t : Nat) (st d : Int) (h : caller ≠ s.authority) :
    close_airdrop s caller = (Except.error ErrorCode.Unauthorized, s) ∧
    update_claim_window s caller st d = (Except.error ErrorCode.Unauthorized, s) ∧
    close_state s caller = (Except.error ErrorCode.Unauthorized, s) ∧
    (update_merkle_root s caller root t).2 = s ∧
    (t ≤ MAX_CLAIMS →
      update_merkle_root s caller root t = (Except.error ErrorCode.Unauthorized, s)) ∧
    (MAX_CLAIMS < t →
      update_merkle_root s caller root t = (Except.error ErrorCode.InvalidIndex, s)) := by
  refine ⟨?_, ?_, ?_, ?_, ?_, ?_⟩
  · unfold close_airdrop; rw [if_neg h]
  · unfold update_claim_window; rw [if_neg h]
  · unfold close_state; rw [if_neg h]
  · unfold update_merkle_root
    split
    · rfl
    · rfl
  · intro ht
    unfold update_merkle_root
    rw [if_pos ht, if_neg h]
  · intro ht
    unfold update_merkle_root
    rw [if_neg (not_le.mpr ht)]

/-- Witness for the amended C6 with caller 8 against authority 7. -/
theorem C6_authority_gating_witness :
    close_airdrop sBase 8 = (Except.error ErrorCode.Unauthorized, sBase) ∧
    update_claim_window sBase 8 1 2 = (Except.error ErrorCode.Unauthorized, sBase) ∧
    close_state sBase 8 = (Except.error ErrorCode.Unauthorized, sBase) ∧
    (update_merkle_root sBase 8 (List.replicate 32 1) 5).2 = sBase ∧
    update_merkle_root sBase 8 (List.replicate 32 1) 5 =
      (Except.error ErrorCode.Unauthorized, sBase) := by
  have h := C6_authority_gating sBase 8 (List.replicate 32 1) 5 1 2 (by decide)
  exact ⟨h.1, h.2.1, h.2.2.1, h.2.2.2.1, h.2.2.2.2.1 (by decide)⟩

/-- C7 counterexample: with `claim_start_ts = 2^63 - 1` and
`claim_duration = 1` the unchecked window-end addition wraps below the
start, and `claim` at `now = claim_start_ts` — the inclusive lower
boundary of an open ledger — fails with `ClaimWindowClosed`, so the claim
that the boundary never produces `ClaimWindowClosed` is false as stated. -/
theorem C7_counterexample :
    sOverflow.claim_closed = false ∧
    (2 ^ 63 - 1 : Int) = sOverflow.claim_start_ts ∧
    (claim keccak0 sOverflow (2 ^ 63 - 1) 0 0 0 []).1 =
      Except.error ErrorCode.ClaimWindowClosed :=
  ⟨rfl, rfl, by decide⟩

/-- C7 (amended): provided the window end `claim_start_ts + claim_duration`
stays inside the i64 range, a claim against an open ledger fails with
`ClaimWindowClosed` exactly when `now` is strictly before `claim_start_ts`
or strictly after `claim_start_ts + claim_duration`; in particular at the
two inclusive boundaries it never yields `ClaimWindowClosed`.  When the sum
overflows i64, the boundary claim does fail with `ClaimWindowClosed` (see
the counterexample). -/
theorem C7_window_boundaries (keccak : List Nat → List Nat) (s : State)
    (now : Int) (index wallet amount : Nat) (proof : List (List Nat))
    (hopen : s.claim_closed = false)
    (hlo : i64Min ≤ s.claim_start_ts + s.claim_duration)
    (hhi : s.claim_start_ts + s.claim_duration ≤ i64Max) :
    (claim keccak s now index wallet amount proof).1 =
        Except.error ErrorCode.ClaimWindowClosed ↔
      (now < s.claim_start_ts ∨ now > s.claim_start_ts + s.claim_duration) := by
  have hw := wrapAdd64_eq s.claim_start_ts s.claim_duration hlo hhi
  unfold claim
  rw [if_neg (show ¬s.claim_closed = true by rw [hopen]; exact Bool.false_ne_true)]
  rw [hw]
  by_cases hwin : now ≥ s.claim_start_ts ∧ now ≤ s.claim_start_ts + s.claim_duration
  · rw [if_pos hwin]
    refine iff_of_false ?_ (by omega)
    split
    · split
      · split
        · simp
        · simp
      · simp
    · simp
  · rw [if_neg hwin]
    exact iff_of_true rfl (by omega)

/-- Witness for the amended C7: `now = 101` is strictly after the window
`[0, 100]` of `sBase`. -/
theorem C7_window_boundaries_witness :
    (claim keccak0 sBase 101 0 0 0 []).1 = Except.error ErrorCode.ClaimWindowClosed ↔
      ((101 : Int) < sBase.claim_start_ts ∨
        (101 : Int) > sBase.claim_start_ts + sBase.claim_duration) :=
  C7_window_boundaries keccak0 sBase 101 0 0 0 [] rfl (by decide) (by decide)

/-- C8: a successful `update_claim_window` call by the authority with a
positive duration stores the new window start and duration and always
resets `claim_closed` to false, leaving every other field unchanged — in
particular a closed ledger is open afterwards. -/
theorem C8_reopen_side_effect (s : State) (caller : Nat) (st d : Int)
    (hc : caller = s.authority) (hd : d > 0) :
    update_claim_window s caller st d =
      (Except.ok (),
        { s with claim_closed := false, claim_start_ts := st, claim_duration := d }) := by
  unfold update_claim_window
  rw [if_pos hc, if_pos hd]

/-- Witness for C8: reopening the closed ledger `sClosed`. -/
theorem C8_reopen_side_effect_witness :
    sClosed.claim_closed = true ∧
    update_claim_window sClosed 7 0 100 =
      (Except.ok (),
        { sClosed with claim_closed := false, claim_start_ts := 0, claim_duration := 100 }) :=
  ⟨rfl, C8_reopen_side_effect sClosed 7 0 100 rfl (by decide)⟩

/-- C9: for every byte array and every residue position at or beyond the
array's bit width, `check_residue_set` returns false (the bit reads as
unset) and `set_residue` is a no-op; and the residues produced by the
public claim path, `index mod 971/311/601`, always lie strictly inside the
bit widths of the three fixed-size arrays (976, 312 and 608 bits), so no
out-of-range access is reachable through `claim`. -/
theorem C9_defensive_bit_primitives (a : List Nat) (r index : Nat)
    (h : 8 * a.length ≤ r) :
    check_residue_set a r = false ∧
    set_residue a r = a ∧
    index % 971 < 8 * 122 ∧ index % 311 < 8 * 39 ∧ index % 601 < 8 * 76 := by
  have hb : a.length ≤ r / 8 := (Nat.le_div_iff_mul_le (by decide)).mpr (by omega)
  have hget : a[r / 8]? = none := List.getElem?_eq_none hb
  refine ⟨?_, ?_, ?_, ?_, ?_⟩
  · simp [check_residue_set, hget]
  · simp [set_residue, hget]
  · have hm := Nat.mod_lt index (show 0 < 971 by decide)
    omega
  · have hm := Nat.mod_lt index (show 0 < 311 by decide)
    omega
  · have hm := Nat.mod_lt index (show 0 < 601 by decide)
    omega

/-- Witness for C9: bit 8 of the one-byte array `[5]`. -/
theorem C9_defensive_bit_primitives_witness :
    check_residue_set [5] 8 = false ∧
    set_residue [5] 8 = [5] ∧
    3 % 971 < 8 * 122 ∧ 3 % 311 < 8 * 39 ∧ 3 % 601 < 8 * 76 :=
  C9_defensive_bit_primitives [5] 8 3 (by decide)

/-- C10: the window end is computed with unchecked i64 addition.
`sOverflow` satisfies the creation precondition — `initializeState` accepts
exactly its parameters, with `claim_duration = 1 > 0` — yet its computed
window end wraps below `claim_start_ts`, and `claim` fails with
`ClaimWindowClosed` at every time in the intended mathematical window
`[claim_start_ts, claim_start_ts + claim_duration]`, including the lower
boundary `now = claim_start_ts`. -/
theorem C10_window_end_overflow (keccak : List Nat → List Nat) (now : Int)
    (index wallet amount : Nat) (proof : List (List Nat))
    (h1 : sOverflow.claim_start_ts ≤ now)
    (h2 : now ≤ sOverflow.claim_start_ts + sOverflow.claim_duration) :
    initializeState 7 (List.replicate 32 0) (2 ^ 63 - 1) 1 (List.replicate 32 0) 5 =
      Except.ok sOverflow ∧
    sOverflow.claim_duration > 0 ∧
    wrapAdd64 sOverflow.claim_start_ts sOverflow.claim_duration <
      sOverflow.claim_start_ts ∧
    (claim keccak sOverflow now index wallet amount proof).1 =
      Except.error ErrorCode.ClaimWindowClosed := by
  have hcond : ¬(now ≥ sOverflow.claim_start_ts ∧
      now ≤ wrapAdd64 sOverflow.claim_start_ts sOverflow.claim_duration) := by
    rintro ⟨ha, hb⟩
    rw [show wrapAdd64 sOverflow.claim_start_ts sOverflow.claim_duration = -(2 ^ 63)
      by decide] at hb
    have hst : sOverflow.claim_start_ts = 2 ^ 63 - 1 := rfl
    omega
  refine ⟨by decide, by decide, by decide, ?_⟩
  unfold claim
  rw [if_neg (show ¬sOverflow.claim_closed = true from Bool.false_ne_true)]
  rw [if_neg hcond]

/-- Witness for C10 at the lower boundary `now = claim_start_ts`. -/
theorem C10_window_end_overflow_witness :
    initializeState 7 (List.replicate 32 0) (2 ^ 63 - 1) 1 (List.replicate 32 0) 5 =
      Except.ok sOverflow ∧
    sOverflow.claim_duration > 0 ∧
    wrapAdd64 sOverflow.claim_start_ts sOverflow.claim_duration <
      sOverflow.claim_start_ts ∧
    (claim keccak0 sOverflow (2 ^ 63 - 1) 0 0 0 []).1 =
      Except.error ErrorCode.ClaimWindowClosed :=
  C10_window_end_overflow keccak0 (2 ^ 63 - 1) 0 0 0 [] (by decide) (by decide)

end Airdrop
